import Mathlib

/-!
Verification development for the Whilber-AI alert subscription and
notification-delivery engine.

The repository ships several front-end clients (`frontend/notif.js`,
`frontend/alert-modal.js`, `frontend/alert_system.js`, `frontend/plan-ui.js`,
plus standalone variants); the server-side core they talk to (Event Sequencer,
Match Engine, Dedup & Notification Store, Quota & Rate Limiter, Channel
Dispatcher, Sync Endpoint) is not part of the repository sources.  Where a
property is decided by that missing server code, the definition below is
modelled from the specification and its doc comment says so; the client-side
logic (`pollAlerts` in `notif.js`, the symbol-chip handlers in
`alert-modal.js`) is embedded directly from the JavaScript source.
-/

namespace AlertCore

/-- A delivery surface, spec section 3/4.6.  The front-end modal
(`alert-modal.js` CHANNELS) exposes `telegram`, `channel` (the operator
broadcast feed), `popup`, `email`, `sound`; the spec additionally names
desktop push, chat-bot, in-app and webhook surfaces. -/
inductive Channel
  | inApp
  | popup
  | sound
  | desktop
  | email
  | chatbot
  | broadcast
  | webhook
deriving DecidableEq, Repr

/-- Symbol scope of a subscription: the wildcard `*` or an explicit list of
symbols, mirroring the `symbols` field built by `save()` in
`alert-modal.js` (either the string `'*'` or an array). -/
inductive SymScope
  | wildcard
  | explicit (syms : List String)
deriving DecidableEq, Repr

/-- Event-type scope: wildcard `*` or an explicit list of event-type ids. -/
inductive EvtScope
  | wildcard
  | explicit (types : List String)
deriving DecidableEq, Repr

/-- Strategy scope: wildcard `*` or a single strategy id, as sent by the
clients (`strategy_id` is `'*'` or a concrete id). -/
inductive StratScope
  | wildcard
  | only (sid : String)
deriving DecidableEq, Repr

/-- Event record, spec section 3: id, strategy id, symbol, event type and an
optional confidence (0-100) from the payload. -/
structure Event where
  id : Nat
  strategyId : String
  symbol : String
  eventType : String
  confidence : Option Nat
deriving DecidableEq, Repr

/-- Subscription record, spec section 3. -/
structure Subscription where
  id : Nat
  subscriber : String
  strategyScope : StratScope
  symbols : SymScope
  eventTypes : EvtScope
  minConfidence : Nat
  channels : List Channel
  enabled : Bool
deriving DecidableEq, Repr

/-- Per-channel delivery outcome, spec section 6: the abstract sender returns
`Delivered` or `Failed(reason)`. -/
inductive DeliveryStatus
  | delivered
  | failed (reason : String)
deriving DecidableEq, Repr

/-- Notification record, spec section 3: owner, originating subscription and
event ids (the dedup key), read flag, cleared (soft-delete) flag and the
per-channel delivery-status map. -/
structure Notification where
  id : Nat
  subscriber : String
  subId : Nat
  eventId : Nat
  read : Bool
  cleared : Bool
  delivery : List (Channel × DeliveryStatus)
deriving DecidableEq, Repr

/-- State of the Dedup & Notification Store: the stored notifications, the
next notification id, and the per-subscriber unread counter maintained
transactionally (spec section 4.4). -/
structure Store where
  notifs : List Notification
  nextId : Nat
  unread : String → Nat

/-- The empty store at service start. -/
def store0 : Store := { notifs := [], nextId := 1, unread := fun _ => 0 }

/-- Modelled from the spec: the Match Engine's symbol-scope check (section
4.3, "symbol scope matches (wildcard OR symbol in set)"); the server-side
Match Engine is not part of the repository sources. -/
def symbolAccepts : SymScope → String → Bool
  | .wildcard, _ => true
  | .explicit syms, sym => syms.contains sym

/-- Modelled from the spec: the strategy-scope check (wildcard OR strategy id
equals). -/
def strategyAccepts : StratScope → String → Bool
  | .wildcard, _ => true
  | .only sid, s => sid == s

/-- Modelled from the spec: the event-type check (event type in accepted
types, or wildcard). -/
def typeAccepts : EvtScope → String → Bool
  | .wildcard, _ => true
  | .explicit ts, t => ts.contains t

/-- Modelled from the spec: the confidence check — the Event's confidence,
if present, must be at least the Subscription's threshold; an event without
a confidence field passes unconditionally (section 4.3). -/
def confAccepts : Option Nat → Nat → Bool
  | none, _ => true
  | some c, thr => thr ≤ c

/-- Modelled from the spec: the Match Engine predicate of section 4.3 — an
enabled subscription whose symbol, strategy, event-type and confidence checks
all pass is selected for the event.  The server-side Match Engine is absent
from the repository sources; only its client callers are present. -/
def matchesEvent (sub : Subscription) (e : Event) : Bool :=
  sub.enabled && symbolAccepts sub.symbols e.symbol
    && strategyAccepts sub.strategyScope e.strategyId
    && typeAccepts sub.eventTypes e.eventType
    && confAccepts e.confidence sub.minConfidence

/-- Number of stored notifications carrying the dedup key
`(subscription id, event id)` (spec section 3 invariant). -/
def keyCount (sid eid : Nat) (st : Store) : Nat :=
  st.notifs.countP fun n => n.subId == sid && n.eventId == eid

/-- Result of `record`: either a fresh notification was created or the dedup
key was already present (`AlreadyExists`, a no-op). -/
inductive RecordResult
  | created
  | alreadyExists
deriving DecidableEq, Repr

/-- Modelled from the spec: `record(subscription_id, event)` of the Dedup &
Notification Store (section 4.4) — an atomic insert-if-absent keyed by
`(subscription_id, event.id)`; on insert the owning subscriber's unread
counter is incremented in the same transaction.  The server-side store is
absent from the repository sources. -/
def record (subscriber : String) (sid : Nat) (e : Event) (st : Store) :
    Store × RecordResult :=
  if 0 < keyCount sid e.id st then (st, .alreadyExists)
  else
    ({ notifs := st.notifs ++
        [{ id := st.nextId, subscriber := subscriber, subId := sid,
           eventId := e.id, read := false, cleared := false, delivery := [] }],
       nextId := st.nextId + 1,
       unread := fun s => if s = subscriber then st.unread s + 1 else st.unread s },
     .created)

/-- Modelled from the spec: one Match Engine pass over the registry for one
event — every matching subscription is handed to the store's idempotent
`record` (control flow of spec section 2; the rate limiter is out of scope
for the dedup property, which section 8 states without it). -/
def processEvent (registry : List Subscription) (e : Event) (st : Store) : Store :=
  registry.foldl
    (fun acc sub => if matchesEvent sub e then (record sub.subscriber sub.id e acc).1 else acc)
    st

/-- Notifications of `s` that count as unread: not cleared and not read. -/
def unreadPred (s : String) (n : Notification) : Bool :=
  n.subscriber == s && !n.read && !n.cleared

/-- Modelled from the spec: `mark_read(notification_id)` (section 4.4) — the
matching stored notification gains `read = true`, and the unread counter is
decremented transactionally for exactly the rows that flipped from unread to
read.  The server-side store is absent from the repository sources; the
client calls it via `/api/alert/mark-read` (`waMarkOne`). -/
def markOne (nid : Nat) (st : Store) : Store :=
  { st with
    notifs := st.notifs.map fun n =>
      if n.id == nid then { n with read := true } else n,
    unread := fun s =>
      st.unread s - st.notifs.countP fun n => n.id == nid && unreadPred s n }

/-- Modelled from the spec: `mark_all_read(subscriber)` (section 4.4) — all
of the subscriber's non-cleared notifications become read and the
subscriber's unread counter drops to zero in the same transaction. -/
def markAll (subscriber : String) (st : Store) : Store :=
  { st with
    notifs := st.notifs.map fun n =>
      if n.subscriber == subscriber && !n.cleared then { n with read := true } else n,
    unread := fun s => if s = subscriber then 0 else st.unread s }

/-- Modelled from the spec: `clear(subscriber)` (section 4.4) — a soft delete
of all the subscriber's notifications; cleared rows leave all subsequent
queries and the unread counter drops to zero. -/
def clearAll (subscriber : String) (st : Store) : Store :=
  { st with
    notifs := st.notifs.map fun n =>
      if n.subscriber == subscriber then { n with cleared := true } else n,
    unread := fun s => if s = subscriber then 0 else st.unread s }

/-- One store operation of the subscriber-facing API surface relevant to the
unread counter: create (via `record`), mark one read, mark all read, clear. -/
inductive AlertOp
  | record (subscriber : String) (subId : Nat) (ev : Event)
  | markOne (nid : Nat)
  | markAll (subscriber : String)
  | clear (subscriber : String)

/-- Apply one operation to the store. -/
def applyOp (st : Store) (op : AlertOp) : Store :=
  match op with
  | .record s sid e => (record s sid e st).1
  | .markOne nid => markOne nid st
  | .markAll s => markAll s st
  | .clear s => clearAll s st

/-- Run a sequence of operations from the empty store. -/
def runOps (ops : List AlertOp) : Store :=
  ops.foldl applyOp store0

/-- Modelled from the spec: the Sync Endpoint's
`poll(subscriber, since_id)` (section 4.7) — the requesting subscriber's
non-cleared notifications with id strictly greater than the cursor, in store
order (ids are assigned in increasing order).  The server-side endpoint is
absent from the repository sources; `notif.js`/`alert_system.js` are its
polling clients. -/
def poll (st : Store) (subscriber : String) (since : Nat) : List Notification :=
  st.notifs.filter fun n => n.subscriber == subscriber && !n.cleared && since < n.id

/-- Cursor update performed by a polling client: the new cursor is the
largest id seen, never smaller than the old cursor. -/
def advanceCursor (c : Nat) (resp : List Notification) : Nat :=
  resp.foldl (fun acc n => max acc n.id) c

/-- Modelled from the spec: recording one channel's delivery outcome in the
notification's per-channel delivery-status map (section 4.6); only the
delivery map of the addressed notification changes. -/
def recordDelivery (nid : Nat) (ch : Channel) (status : DeliveryStatus) (st : Store) : Store :=
  { st with
    notifs := st.notifs.map fun n =>
      if n.id == nid then { n with delivery := n.delivery ++ [(ch, status)] } else n }

/-- Modelled from the spec: the Channel Dispatcher's
`dispatch(notification, channels)` (section 4.6) — every requested channel is
attempted independently via the abstract sender and its outcome (Delivered or
Failed) is recorded; a failure on one channel never stops the others and
never touches the stored notification beyond its delivery map.  The
server-side dispatcher is absent from the repository sources. -/
def dispatch (send : Channel → DeliveryStatus) (nid : Nat) (channels : List Channel)
    (st : Store) : Store :=
  channels.foldl (fun acc ch => recordDelivery nid ch (send ch) acc) st

/-- Subscription configuration as submitted on create/update, spec sections
4.2 and 9 (`scope`, `event_types`, `channels`, `min_confidence`). -/
structure SubConfig where
  strategyScope : StratScope
  symbols : SymScope
  eventTypes : EvtScope
  minConfidence : Nat
  channels : List Channel
deriving DecidableEq, Repr

/-- Typed errors of the subscription Registry, spec section 7. -/
inductive RegError
  | InvalidConfig
  | Forbidden
  | ChannelNotAllowed (ch : Channel)
  | QuotaExceeded
  | NotFound
deriving DecidableEq, Repr

/-- Plan quota consumed by the Registry: ceiling on concurrently enabled
subscriptions and the allowed channel set (spec section 3, `Quota`). -/
structure Plan where
  maxEnabled : Nat
  allowedChannels : List Channel
deriving DecidableEq, Repr

/-- State of the Subscription Registry. -/
structure Registry where
  subs : List Subscription
  nextSubId : Nat
deriving DecidableEq, Repr

/-- True when the symbol scope is the rejected empty explicit set. -/
def symScopeEmpty : SymScope → Bool
  | .explicit [] => true
  | _ => false

/-- True when the event-type scope is the rejected empty explicit set. -/
def evtScopeEmpty : EvtScope → Bool
  | .explicit [] => true
  | _ => false

/-- Modelled from the spec: basic configuration validity (section 4.2) — an
empty explicit symbol set or event-type set means "match nothing" and is
rejected; the wildcard is a distinct first-class value and is not rejected.
The threshold must lie in 0-100 (section 7, "out-of-range threshold"). -/
def validConfig (cfg : SubConfig) : Bool :=
  !symScopeEmpty cfg.symbols && !evtScopeEmpty cfg.eventTypes
    && decide (cfg.minConfidence ≤ 100)

/-- Number of the subscriber's currently enabled subscriptions. -/
def enabledCount (subscriber : String) (reg : Registry) : Nat :=
  reg.subs.countP fun s => s.subscriber == subscriber && s.enabled

/-- Modelled from the spec: `create(subscriber, config)` of the Subscription
Registry (section 4.2), absent from the repository sources.  The broadcast
capability is an admin-only gate on the operation (section 6 exposes admin
actions as "privileged variants of existing operations, gated by an
`is_admin` capability check"), so it is checked first (`Forbidden`); then
configuration validity (`InvalidConfig`), channel policy
(`ChannelNotAllowed`, naming the offending channel), and the plan's
max-enabled-subscriptions ceiling (`QuotaExceeded`).  A failed create returns
the registry unchanged. -/
def createSub (isAdmin : Bool) (plan : Plan) (subscriber : String) (cfg : SubConfig)
    (reg : Registry) : Registry × Except RegError Nat :=
  if Channel.broadcast ∈ cfg.channels ∧ isAdmin = false then (reg, .error .Forbidden)
  else if validConfig cfg = false then (reg, .error .InvalidConfig)
  else
    match cfg.channels.find? (fun ch => !plan.allowedChannels.contains ch) with
    | some ch => (reg, .error (.ChannelNotAllowed ch))
    | none =>
      if plan.maxEnabled ≤ enabledCount subscriber reg then (reg, .error .QuotaExceeded)
      else
        ({ subs := reg.subs ++
            [{ id := reg.nextSubId, subscriber := subscriber,
               strategyScope := cfg.strategyScope, symbols := cfg.symbols,
               eventTypes := cfg.eventTypes, minConfidence := cfg.minConfidence,
               channels := cfg.channels, enabled := true }],
           nextSubId := reg.nextSubId + 1 },
         .ok reg.nextSubId)

/-- Modelled from the spec: `update(id, config)` of the Subscription Registry
(section 4.2), absent from the repository sources.  The new configuration is
validated exactly like a create (section 3: the channel-set/plan invariant is
"enforced on create/update"): the admin-only broadcast capability gate first
(`Forbidden`), then configuration validity (`InvalidConfig`), then channel
policy (`ChannelNotAllowed`); an unknown subscription id draws `NotFound`
(section 7).  The ceiling applies to creation only, and a failed update
returns the registry unchanged. -/
def updateSub (isAdmin : Bool) (plan : Plan) (sid : Nat) (cfg : SubConfig)
    (reg : Registry) : Registry × Except RegError Nat :=
  if Channel.broadcast ∈ cfg.channels ∧ isAdmin = false then (reg, .error .Forbidden)
  else if validConfig cfg = false then (reg, .error .InvalidConfig)
  else
    match cfg.channels.find? (fun ch => !plan.allowedChannels.contains ch) with
    | some ch => (reg, .error (.ChannelNotAllowed ch))
    | none =>
      if reg.subs.any (fun s => s.id == sid) then
        ({ subs := reg.subs.map (fun s =>
             if s.id == sid then
               { s with
                 strategyScope := cfg.strategyScope, symbols := cfg.symbols,
                 eventTypes := cfg.eventTypes, minConfidence := cfg.minConfidence,
                 channels := cfg.channels }
             else s),
           nextSubId := reg.nextSubId },
         .ok sid)
      else (reg, .error .NotFound)

end AlertCore

namespace NotifJs

/-- One entry of the `/api/alerts/log` response consumed by `pollAlerts`
(`frontend/notif.js` lines 50-68). -/
structure LogEntry where
  id : Nat
  event_type : String
  symbol : String
  message : String
deriving DecidableEq, Repr

/-- Embedding of `pollAlerts` (`frontend/notif.js` lines 50-68) on one
successful fetch: given the stored cursor `_lastAlertId` and the response's
`logs` array, it returns the entries passed to `showNotif` (in the order of
the `for` loop, which walks `logs` from last index to first and shows an
entry only when `l.id > _lastAlertId`, and only when the guard
`logs.length > 0 && _lastAlertId > 0` holds) together with the new cursor
(`_lastAlertId = logs[0].id` whenever `logs` is non-empty). -/
def pollAlerts (lastAlertId : Nat) (logs : List LogEntry) : List LogEntry × Nat :=
  let shown :=
    if 0 < logs.length ∧ 0 < lastAlertId then
      logs.reverse.filter fun l => lastAlertId < l.id
    else []
  let newLast :=
    match logs with
    | [] => lastAlertId
    | l0 :: _ => l0.id
  (shown, newLast)

end NotifJs

namespace AlertModal

/-- The 12 explicit symbols offered by the universal alert modal
(`frontend/alert-modal.js` line 10, `ALL_SYMBOLS`). -/
def ALL_SYMBOLS : List String :=
  ["XAUUSD", "EURUSD", "GBPUSD", "USDJPY", "AUDUSD", "USDCAD",
   "NZDUSD", "USDCHF", "BTCUSD", "XAGUSD", "US30", "NAS100"]

/-- Initial value of `_selectedSymbols` (`frontend/alert-modal.js` lines 37
and 271): the wildcard singleton. -/
def defaultSelectedSymbols : Finset String := {"*"}

/-- Embedding of the all-chip `onclick` handler in `_buildSymbols`
(`frontend/alert-modal.js` lines 119-127): if the wildcard is selected the
set is cleared, otherwise the selection becomes exactly the wildcard. -/
def allChipClick (sel : Finset String) : Finset String :=
  if "*" ∈ sel then ∅ else {"*"}

/-- Embedding of an explicit symbol chip's `onclick` handler in
`_buildSymbols` (`frontend/alert-modal.js` lines 135-143): the wildcard is
dropped, the clicked symbol is toggled, and a resulting size of 0 or of
`ALL_SYMBOLS.length` collapses the selection to the wildcard singleton. -/
def symChipClick (s : String) (sel : Finset String) : Finset String :=
  let sel1 := sel.erase "*"
  let sel2 := if s ∈ sel1 then sel1.erase s else insert s sel1
  if sel2.card = 0 ∨ sel2.card = ALL_SYMBOLS.length then {"*"} else sel2

end AlertModal


open AlertCore NotifJs AlertModal

/-- The symbol-scope check passes exactly on the wildcard or on membership in
the explicit set. -/
lemma symbolAccepts_iff (sc : SymScope) (sym : String) :
    symbolAccepts sc sym = true ↔
      (sc = SymScope.wildcard ∨ ∃ l, sc = SymScope.explicit l ∧ sym ∈ l) := by
  cases sc with
  | wildcard => simp [symbolAccepts]
  | explicit l => simp [symbolAccepts]

/-- The strategy-scope check passes exactly on the wildcard or on equality. -/
lemma strategyAccepts_iff (sc : StratScope) (s : String) :
    strategyAccepts sc s = true ↔
      (sc = StratScope.wildcard ∨ sc = StratScope.only s) := by
  cases sc with
  | wildcard => simp [strategyAccepts]
  | only sid => simp [strategyAccepts, beq_iff_eq]

/-- The event-type check passes exactly on the wildcard or on membership. -/
lemma typeAccepts_iff (sc : EvtScope) (t : String) :
    typeAccepts sc t = true ↔
      (sc = EvtScope.wildcard ∨ ∃ ts, sc = EvtScope.explicit ts ∧ t ∈ ts) := by
  cases sc with
  | wildcard => simp [typeAccepts]
  | explicit ts => simp [typeAccepts]

/-- The confidence check passes exactly when any present confidence clears
the threshold. -/
lemma confAccepts_iff (c : Option Nat) (thr : Nat) :
    confAccepts c thr = true ↔ (∀ v, c = some v → thr ≤ v) := by
  cases c with
  | none => simp [confAccepts]
  | some v => simp [confAccepts]

/-- Full characterisation of the Match Engine predicate. -/
lemma matchesEvent_iff (sub : Subscription) (e : Event) :
    matchesEvent sub e = true ↔
      (sub.enabled = true
        ∧ (sub.symbols = SymScope.wildcard
            ∨ ∃ l, sub.symbols = SymScope.explicit l ∧ e.symbol ∈ l)
        ∧ (sub.strategyScope = StratScope.wildcard
            ∨ sub.strategyScope = StratScope.only e.strategyId)
        ∧ (sub.eventTypes = EvtScope.wildcard
            ∨ ∃ ts, sub.eventTypes = EvtScope.explicit ts ∧ e.eventType ∈ ts)
        ∧ (∀ v, e.confidence = some v → sub.minConfidence ≤ v)) := by
  rw [matchesEvent, Bool.and_eq_true, Bool.and_eq_true, Bool.and_eq_true,
    Bool.and_eq_true, symbolAccepts_iff, strategyAccepts_iff, typeAccepts_iff,
    confAccepts_iff]
  tauto

/-- C2: the Match Engine selects a subscription for an event if and only if
the subscription is enabled, its symbol scope is the wildcard or contains the
event's symbol, its strategy scope is the wildcard or equals the event's
strategy id, the event's type is accepted (explicitly or by wildcard), and
any present confidence clears the minimum-confidence threshold (absent
confidence always passes).  In particular a subscription scoped to exactly
EURUSD never matches a GBPUSD event, and a wildcard symbol scope accepts
every symbol. -/
theorem c2_match_engine_selects_iff :
    (∀ (sub : Subscription) (e : Event),
      matchesEvent sub e = true ↔
        (sub.enabled = true
          ∧ (sub.symbols = SymScope.wildcard
              ∨ ∃ l, sub.symbols = SymScope.explicit l ∧ e.symbol ∈ l)
          ∧ (sub.strategyScope = StratScope.wildcard
              ∨ sub.strategyScope = StratScope.only e.strategyId)
          ∧ (sub.eventTypes = EvtScope.wildcard
              ∨ ∃ ts, sub.eventTypes = EvtScope.explicit ts ∧ e.eventType ∈ ts)
          ∧ (∀ v, e.confidence = some v → sub.minConfidence ≤ v)))
    ∧ (∀ (sub : Subscription) (e : Event),
        sub.symbols = SymScope.explicit ["EURUSD"] → e.symbol = "GBPUSD" →
        matchesEvent sub e = false)
    ∧ (∀ (sub : Subscription) (e : Event),
        sub.symbols = SymScope.wildcard → symbolAccepts sub.symbols e.symbol = true) := by
  refine ⟨fun sub e => matchesEvent_iff sub e, fun sub e hs he => ?_, fun sub e hs => ?_⟩
  · rw [Bool.eq_false_iff]
    intro hm
    rcases (matchesEvent_iff sub e).mp hm with ⟨-, hsym, -⟩
    rcases hsym with h | ⟨l, hl, hmem⟩
    · rw [hs] at h; cases h
    · rw [hs] at hl
      cases hl
      rw [he] at hmem
      simp at hmem
  · rw [hs]; rfl

/-- Witness for C2 at a concrete subscription and event: a subscription whose
explicit symbol scope is exactly EURUSD is not selected for a GBPUSD event. -/
theorem c2_match_engine_selects_iff_witness :
    matchesEvent
      { id := 1, subscriber := "u", strategyScope := StratScope.wildcard,
        symbols := SymScope.explicit ["EURUSD"], eventTypes := EvtScope.wildcard,
        minConfidence := 0, channels := [], enabled := true }
      { id := 100, strategyId := "s", symbol := "GBPUSD", eventType := "near_sl",
        confidence := some 72 } = false :=
  c2_match_engine_selects_iff.2.1 _ _ rfl rfl

/-- C9: on a successful poll while the stored cursor `_lastAlertId` is 0 (the
state after page load), `pollAlerts` shows no popup whatever the response
contains, and whenever the response is non-empty it stores `logs[0].id` —
the newest id when the log endpoint returns newest-first — as the cursor; on
polls with a positive cursor, exactly the entries whose id exceeds the
cursor are shown (walking the response from oldest to newest). -/
theorem c9_pollAlerts_first_poll_silent :
    (∀ logs : List LogEntry, (pollAlerts 0 logs).1 = [])
    ∧ (∀ (last : Nat) (l0 : LogEntry) (rest : List LogEntry),
        (∀ l ∈ l0 :: rest, l.id ≤ l0.id) →
        (pollAlerts last (l0 :: rest)).2 = l0.id
          ∧ ∀ l ∈ l0 :: rest, l.id ≤ (pollAlerts last (l0 :: rest)).2)
    ∧ (∀ (last : Nat) (logs : List LogEntry), 0 < last →
        (pollAlerts last logs).1 = logs.reverse.filter (fun l => last < l.id)
          ∧ ∀ l ∈ (pollAlerts last logs).1, last < l.id) := by
  refine ⟨fun logs => by simp [pollAlerts], fun last l0 rest h => ⟨rfl, h⟩,
    fun last logs hlast => ?_⟩
  cases logs with
  | nil => simp [pollAlerts]
  | cons l0 rest =>
    constructor
    · simp [pollAlerts, hlast]
    · intro l hl
      simp only [pollAlerts, List.length_cons] at hl
      rw [if_pos ⟨Nat.succ_pos _, hlast⟩, List.mem_filter] at hl
      exact of_decide_eq_true hl.2

/-- Witness for C9: with cursor 0 nothing is shown even for a fresh entry;
with cursor 5 the same response shows exactly the entry with id 7 and the
cursor becomes 7. -/
theorem c9_pollAlerts_first_poll_silent_witness :
    (pollAlerts 0 [{ id := 7, event_type := "entry", symbol := "XAUUSD", message := "" }]).1 = []
      ∧ (pollAlerts 5 [{ id := 7, event_type := "entry", symbol := "XAUUSD", message := "" }]).2 = 7
      ∧ (pollAlerts 5 [{ id := 7, event_type := "entry", symbol := "XAUUSD", message := "" }]).1
          = [{ id := 7, event_type := "entry", symbol := "XAUUSD", message := "" }] := by
  refine ⟨c9_pollAlerts_first_poll_silent.1 _,
    (c9_pollAlerts_first_poll_silent.2.1 5 _ [] (by simp)).1,
    ?_⟩
  rw [(c9_pollAlerts_first_poll_silent.2.2 5 _ (by decide)).1]
  rfl

/-- C10 counterexample: from the modal's initial selection (the wildcard
singleton, `_selectedSymbols = new Set(['*'])`), clicking the all-chip runs
`_selectedSymbols.clear()` and leaves the selection empty — not the wildcard
singleton the claim requires, so a symbol-chip click can produce the empty
set. -/
theorem c10_all_chip_empties_selection :
    allChipClick defaultSelectedSymbols = ∅
      ∧ allChipClick defaultSelectedSymbols ≠ {"*"} := by
  constructor
  · simp [allChipClick, defaultSelectedSymbols]
  · simp only [allChipClick, defaultSelectedSymbols]
    rw [if_pos (Finset.mem_singleton_self _)]
    exact (Finset.singleton_ne_empty _).symm

/-- The modal's 12 explicit symbols are pairwise distinct, so their Finset
has 12 elements. -/
lemma all_symbols_card : ALL_SYMBOLS.toFinset.card = 12 := by decide

/-- Unfolding of the explicit-chip handler. -/
lemma symChipClick_def (s : String) (sel : Finset String) :
    symChipClick s sel =
      if (if s ∈ sel.erase "*" then (sel.erase "*").erase s else insert s (sel.erase "*")).card = 0
          ∨ (if s ∈ sel.erase "*" then (sel.erase "*").erase s else insert s (sel.erase "*")).card
              = ALL_SYMBOLS.length
      then {"*"}
      else if s ∈ sel.erase "*" then (sel.erase "*").erase s else insert s (sel.erase "*") := rfl

/-- The collapse step at the end of the explicit-chip handler never returns
the empty set nor the full explicit list. -/
lemma collapse_ne (t : Finset String) :
    (if t.card = 0 ∨ t.card = ALL_SYMBOLS.length then ({"*"} : Finset String) else t) ≠ ∅
    ∧ (if t.card = 0 ∨ t.card = ALL_SYMBOLS.length then ({"*"} : Finset String) else t)
        ≠ ALL_SYMBOLS.toFinset := by
  split_ifs with h
  · refine ⟨Finset.singleton_ne_empty _, fun hEq => ?_⟩
    have hc := congrArg Finset.card hEq
    rw [Finset.card_singleton, all_symbols_card] at hc
    cases hc
  · push_neg at h
    refine ⟨fun hEq => h.1 (by rw [hEq, Finset.card_empty]), fun hEq => h.2 ?_⟩
    rw [hEq, all_symbols_card]
    rfl

/-- C10 amended: after every explicit-symbol-chip click the selection is
non-empty and never equals the full explicit symbol list — removing the last
remaining explicit symbol, and likewise selecting every one of the 12
explicit symbols, each collapse the selection to exactly the wildcard set;
the all-chip click, however, yields the wildcard singleton only when the
wildcard was not already selected, and clears the selection to the empty set
when it was. -/
theorem c10_symbol_click_invariant_amended :
    (∀ sel : Finset String, "*" ∉ sel → allChipClick sel = {"*"})
    ∧ (∀ sel : Finset String, "*" ∈ sel → allChipClick sel = ∅)
    ∧ (∀ (s : String) (sel : Finset String),
        symChipClick s sel ≠ ∅ ∧ symChipClick s sel ≠ ALL_SYMBOLS.toFinset)
    ∧ (∀ (s : String) (sel : Finset String), sel = {s} → symChipClick s sel = {"*"})
    ∧ (∀ (s : String) (sel : Finset String), "*" ∉ sel → s ∉ sel →
        (insert s sel).card = ALL_SYMBOLS.length → symChipClick s sel = {"*"}) := by
  refine ⟨fun sel h => by simp [allChipClick, h],
    fun sel h => by simp [allChipClick, h],
    fun s sel => ?_, fun s sel hsel => ?_, fun s sel hstar hs hcard => ?_⟩
  · rw [symChipClick_def]
    exact collapse_ne _
  · subst hsel
    by_cases hs : s = "*"
    · subst hs
      simp [symChipClick_def, Finset.erase_singleton, ALL_SYMBOLS]
    · have h1 : ({s} : Finset String).erase "*" = {s} :=
        Finset.erase_eq_of_not_mem (by simp [Ne.symm hs])
      simp [symChipClick_def, h1, Finset.erase_singleton, ALL_SYMBOLS]
  · have h1 : sel.erase "*" = sel := Finset.erase_eq_of_not_mem hstar
    rw [symChipClick_def, h1]
    simp only [if_neg hs]
    rw [if_pos (Or.inr hcard)]

/-- Witness for C10 amended: clicking the all-chip with nothing selected
yields the wildcard; clicking XAUUSD when it is the only selected symbol
collapses to the wildcard; clicking the 12th symbol with the other 11
selected collapses to the wildcard. -/
theorem c10_symbol_click_invariant_amended_witness :
    allChipClick ∅ = {"*"}
      ∧ symChipClick "XAUUSD" {"XAUUSD"} = {"*"}
      ∧ symChipClick "NAS100"
          ({"XAUUSD", "EURUSD", "GBPUSD", "USDJPY", "AUDUSD", "USDCAD",
            "NZDUSD", "USDCHF", "BTCUSD", "XAGUSD", "US30"} : Finset String) = {"*"} :=
  ⟨c10_symbol_click_invariant_amended.1 ∅ (by simp),
   c10_symbol_click_invariant_amended.2.2.2.1 "XAUUSD" {"XAUUSD"} rfl,
   c10_symbol_click_invariant_amended.2.2.2.2 "NAS100" _ (by decide) (by decide) (by decide)⟩

/-- countP respects pointwise-equal Bool predicates. -/
lemma countP_congr_eq {α : Type} {p q : α → Bool} {l : List α}
    (h : ∀ a ∈ l, p a = q a) : l.countP p = l.countP q :=
  List.countP_congr fun x hx => by rw [h x hx]

/-- Splitting a count along a second predicate. -/
lemma countP_and_split {α : Type} (p q : α → Bool) (l : List α) :
    l.countP (fun a => p a && q a) + l.countP (fun a => p a && !q a) = l.countP p := by
  induction l with
  | nil => rfl
  | cons x t ih =>
    simp only [List.countP_cons]
    cases hp : p x <;> cases hq : q x <;> simp [hp, hq] <;> omega

/-- The unread-counter invariant of spec section 4.4: the counter equals the
number of stored non-cleared unread notifications of each subscriber. -/
def unreadInv (st : Store) : Prop :=
  ∀ s, st.unread s = st.notifs.countP (unreadPred s)

/-- The empty store satisfies the unread invariant. -/
lemma unreadInv_store0 : unreadInv store0 := fun _ => rfl

/-- `record` preserves the unread invariant. -/
lemma unreadInv_record (subscriber : String) (sid : Nat) (e : Event) (st : Store)
    (h : unreadInv st) : unreadInv (record subscriber sid e st).1 := by
  intro s
  unfold record
  split_ifs with hk
  · exact h s
  · simp only [List.countP_append]
    by_cases hs : s = subscriber
    · subst hs
      simp [unreadPred, h s, List.countP_cons]
    · simp [unreadPred, h s, hs, List.countP_cons, Ne.symm hs]

/-- `markOne` preserves the unread invariant. -/
lemma unreadInv_markOne (nid : Nat) (st : Store) (h : unreadInv st) :
    unreadInv (markOne nid st) := by
  intro s
  show st.unread s - st.notifs.countP (fun n => n.id == nid && unreadPred s n)
      = (st.notifs.map fun n => if n.id == nid then { n with read := true } else n).countP
          (unreadPred s)
  rw [List.countP_map]
  have hcomp :
      st.notifs.countP
          (unreadPred s ∘ fun n => if n.id == nid then { n with read := true } else n)
        = st.notifs.countP (fun n => unreadPred s n && !(n.id == nid)) := by
    apply countP_congr_eq
    intro n _
    by_cases hn : (n.id == nid) = true
    · simp [Function.comp, hn, unreadPred]
    · simp [Function.comp, hn]
  have hsub :
      st.notifs.countP (fun n => n.id == nid && unreadPred s n)
        = st.notifs.countP (fun n => unreadPred s n && (n.id == nid)) :=
    countP_congr_eq fun n _ => Bool.and_comm _ _
  have hsplit := countP_and_split (unreadPred s) (fun n => n.id == nid) st.notifs
  rw [hcomp, hsub, h s]
  omega

/-- `markAll` preserves the unread invariant. -/
lemma unreadInv_markAll (subscriber : String) (st : Store) (h : unreadInv st) :
    unreadInv (markAll subscriber st) := by
  intro s
  show (if s = subscriber then 0 else st.unread s)
      = (st.notifs.map fun n =>
          if n.subscriber == subscriber && !n.cleared then { n with read := true } else n).countP
          (unreadPred s)
  rw [List.countP_map]
  by_cases hs : s = subscriber
  · subst hs
    rw [if_pos rfl]
    symm
    rw [List.countP_eq_zero]
    intro n _
    by_cases hc : (n.subscriber == s && !n.cleared) = true
    · simp [Function.comp, hc, unreadPred]
    · simp only [Function.comp, if_neg hc]
      simp only [unreadPred, Bool.and_eq_true, Bool.not_eq_true'] at hc ⊢
      tauto
  · rw [if_neg hs, h s]
    apply countP_congr_eq
    intro n _
    by_cases hc : (n.subscriber == subscriber && !n.cleared) = true
    · have hns : n.subscriber = subscriber := by
        have := hc
        simp only [Bool.and_eq_true, beq_iff_eq] at this
        exact this.1
      have hbs : (subscriber == s) = false := by simp [Ne.symm hs]
      simp only [Function.comp]
      rw [if_pos hc]
      simp [unreadPred, hns, hbs]
    · simp [Function.comp, hc]

/-- `clearAll` preserves the unread invariant. -/
lemma unreadInv_clearAll (subscriber : String) (st : Store) (h : unreadInv st) :
    unreadInv (clearAll subscriber st) := by
  intro s
  show (if s = subscriber then 0 else st.unread s)
      = (st.notifs.map fun n =>
          if n.subscriber == subscriber then { n with cleared := true } else n).countP
          (unreadPred s)
  rw [List.countP_map]
  by_cases hs : s = subscriber
  · subst hs
    rw [if_pos rfl]
    symm
    rw [List.countP_eq_zero]
    intro n _
    by_cases hc : (n.subscriber == s) = true
    · simp [Function.comp, hc, unreadPred]
    · simp only [Function.comp, if_neg hc]
      simp only [unreadPred, Bool.and_eq_true, Bool.not_eq_true'] at hc ⊢
      tauto
  · rw [if_neg hs, h s]
    apply countP_congr_eq
    intro n _
    by_cases hc : (n.subscriber == subscriber) = true
    · have hns : n.subscriber = subscriber := by
        simpa [beq_iff_eq] using hc
      have hbs : (subscriber == s) = false := by simp [Ne.symm hs]
      simp only [Function.comp]
      rw [if_pos hc]
      simp [unreadPred, hns, hbs]
    · simp [Function.comp, hc]

/-- Each store operation preserves the unread invariant. -/
lemma unreadInv_applyOp (st : Store) (op : AlertOp) (h : unreadInv st) :
    unreadInv (applyOp st op) := by
  cases op with
  | record s sid e => exact unreadInv_record s sid e st h
  | markOne nid => exact unreadInv_markOne nid st h
  | markAll s => exact unreadInv_markAll s st h
  | clear s => exact unreadInv_clearAll s st h

/-- C4: after any sequence of create / mark-one-read / mark-all-read / clear
operations starting from the empty store, the per-subscriber unread counter
equals the number of that subscriber's non-cleared notifications whose read
flag is false. -/
theorem c4_unread_count_invariant (ops : List AlertOp) (s : String) :
    (runOps ops).unread s = (runOps ops).notifs.countP (unreadPred s) := by
  suffices h : unreadInv (runOps ops) from h s
  unfold runOps
  induction ops using List.reverseRecOn with
  | nil => exact unreadInv_store0
  | append_singleton t op ih =>
    rw [List.foldl_append]
    exact unreadInv_applyOp _ op ih

/-- One step of the match-and-record pass. -/
lemma processEvent_cons (sub : Subscription) (rest : List Subscription) (e : Event)
    (st : Store) :
    processEvent (sub :: rest) e st
      = processEvent rest e
          (if matchesEvent sub e then (record sub.subscriber sub.id e st).1 else st) := rfl

/-- `record` is a no-op when the dedup key is already present. -/
lemma record_fst_of_pos (subscriber : String) (sid : Nat) (e : Event) (st : Store)
    (h : 0 < keyCount sid e.id st) : (record subscriber sid e st).1 = st := by
  unfold record
  rw [if_pos h]

/-- An absent dedup key gains exactly one notification on `record`. -/
lemma keyCount_record_self (subscriber : String) (sid : Nat) (e : Event) (st : Store)
    (h : ¬ 0 < keyCount sid e.id st) :
    keyCount sid e.id (record subscriber sid e st).1 = keyCount sid e.id st + 1 := by
  unfold record
  rw [if_neg h]
  simp [keyCount, List.countP_append, List.countP_cons]

/-- Recording under a different subscription id leaves a key's count alone. -/
lemma keyCount_record_other (subscriber : String) (sid' : Nat) (e : Event) (st : Store)
    (sid : Nat) (hne : sid' ≠ sid) :
    keyCount sid e.id (record subscriber sid' e st).1 = keyCount sid e.id st := by
  unfold record
  split_ifs with h
  · rfl
  · simp [keyCount, List.countP_append, List.countP_cons, hne]

/-- After `record` on a key, the key is present. -/
lemma keyCount_record_pos (subscriber : String) (sid : Nat) (e : Event) (st : Store) :
    0 < keyCount sid e.id (record subscriber sid e st).1 := by
  by_cases hk : 0 < keyCount sid e.id st
  · rw [record_fst_of_pos _ _ _ _ hk]
    exact hk
  · rw [keyCount_record_self _ _ _ _ hk]
    omega

/-- A dedup key held at most once stays held at most once through a full
match-and-record pass. -/
lemma keyCount_processEvent_le_one (reg : List Subscription) (e : Event) (st : Store)
    (sid : Nat) (h : keyCount sid e.id st ≤ 1) :
    keyCount sid e.id (processEvent reg e st) ≤ 1 := by
  induction reg generalizing st with
  | nil => exact h
  | cons sub rest ih =>
    rw [processEvent_cons]
    by_cases hm : matchesEvent sub e = true
    · rw [if_pos hm]
      by_cases hid : sub.id = sid
      · subst hid
        by_cases hk : 0 < keyCount sub.id e.id st
        · rw [record_fst_of_pos _ _ _ _ hk]
          exact ih _ h
        · apply ih
          rw [keyCount_record_self _ _ _ _ hk]
          omega
      · apply ih
        rw [keyCount_record_other _ _ _ _ _ hid]
        exact h
    · rw [if_neg hm]
      exact ih _ h

/-- A key's count never decreases through a match-and-record pass. -/
lemma keyCount_processEvent_mono (reg : List Subscription) (e : Event) (st : Store)
    (sid : Nat) :
    keyCount sid e.id st ≤ keyCount sid e.id (processEvent reg e st) := by
  induction reg generalizing st with
  | nil => exact le_refl _
  | cons sub rest ih =>
    rw [processEvent_cons]
    refine le_trans ?_ (ih _)
    by_cases hm : matchesEvent sub e = true
    · rw [if_pos hm]
      by_cases hk : 0 < keyCount sub.id e.id st
      · rw [record_fst_of_pos _ _ _ _ hk]
      · by_cases hid : sub.id = sid
        · subst hid
          rw [keyCount_record_self _ _ _ _ hk]
          omega
        · rw [keyCount_record_other _ _ _ _ _ hid]
    · rw [if_neg hm]

/-- After a pass, every matching subscription's key is present. -/
lemma keyCount_processEvent_pos (reg : List Subscription) (e : Event) (st : Store)
    (S : Subscription) (hS : S ∈ reg) (hm : matchesEvent S e = true) :
    0 < keyCount S.id e.id (processEvent reg e st) := by
  induction reg generalizing st with
  | nil => cases hS
  | cons sub rest ih =>
    rw [processEvent_cons]
    rcases List.mem_cons.mp hS with rfl | hmem
    · rw [if_pos hm]
      exact lt_of_lt_of_le (keyCount_record_pos _ _ _ _)
        (keyCount_processEvent_mono rest e _ _)
    · by_cases hm2 : matchesEvent sub e = true
      · rw [if_pos hm2]
        exact ih _ hmem
      · rw [if_neg hm2]
        exact ih _ hmem

/-- C1: for an event E and a subscription S whose filters accept E, a
match-and-record pass starting from a store without the dedup key
`(S.id, E.id)` leaves exactly one notification for that key, and re-running
the complete pass on the same event (replay) still leaves exactly one:
repeated matching never creates a second notification for the pair. -/
theorem c1_dedup_replay_safety (reg : List Subscription) (e : Event) (S : Subscription)
    (st : Store) (hS : S ∈ reg) (hm : matchesEvent S e = true)
    (h0 : keyCount S.id e.id st = 0) :
    keyCount S.id e.id (processEvent reg e st) = 1
      ∧ keyCount S.id e.id (processEvent reg e (processEvent reg e st)) = 1 := by
  have h1le : keyCount S.id e.id (processEvent reg e st) ≤ 1 :=
    keyCount_processEvent_le_one reg e st S.id (by omega)
  have h1pos := keyCount_processEvent_pos reg e st S hS hm
  refine ⟨by omega, ?_⟩
  have h2le := keyCount_processEvent_le_one reg e (processEvent reg e st) S.id (by omega)
  have h2pos := keyCount_processEvent_pos reg e (processEvent reg e st) S hS hm
  omega

/-- Concrete wildcard subscription used by witnesses. -/
def demoSub : Subscription :=
  { id := 3, subscriber := "u", strategyScope := StratScope.wildcard,
    symbols := SymScope.wildcard, eventTypes := EvtScope.wildcard,
    minConfidence := 0, channels := [], enabled := true }

/-- Concrete event used by witnesses. -/
def demoEvent : Event :=
  { id := 100, strategyId := "s", symbol := "XAUUSD", eventType := "entry",
    confidence := none }

/-- Witness for C1 at a concrete registry, event and the empty store: one
pass creates exactly one notification for the pair, and replaying the event
leaves it at exactly one. -/
theorem c1_dedup_replay_safety_witness :
    keyCount 3 100 (processEvent [demoSub] demoEvent store0) = 1
      ∧ keyCount 3 100
          (processEvent [demoSub] demoEvent (processEvent [demoSub] demoEvent store0)) = 1 :=
  c1_dedup_replay_safety [demoSub] demoEvent demoSub store0
    (List.mem_singleton.mpr rfl) rfl rfl

/-- Raising the cursor refines the poll result by filtering on the id. -/
lemma poll_shift (st : Store) (subscriber : String) (c1 c2 : Nat) (h : c1 < c2) :
    poll st subscriber c2 = (poll st subscriber c1).filter fun n => c2 < n.id := by
  unfold poll
  rw [List.filter_filter]
  apply List.filter_congr
  intro n _
  by_cases h2 : c2 < n.id
  · have h1 : c1 < n.id := lt_trans h h2
    simp [h1, h2]
  · simp [h2]

/-- The complement of the id-restriction inside an earlier poll is the later
poll. -/
lemma poll_not_le (st : Store) (subscriber : String) (c1 c2 : Nat) (h : c1 < c2) :
    ((poll st subscriber c1).filter fun n => !decide (n.id ≤ c2))
      = poll st subscriber c2 := by
  rw [poll_shift st subscriber c1 c2 h]
  apply List.filter_congr
  intro n _
  rw [← decide_not]
  exact decide_eq_decide.mpr (by omega)

/-- The client cursor never moves backwards. -/
lemma advanceCursor_ge (c : Nat) (l : List Notification) : c ≤ advanceCursor c l := by
  induction l generalizing c with
  | nil => exact le_refl c
  | cons n t ih => exact le_trans (le_max_left c n.id) (ih _)

/-- Every id in the response is at most the advanced cursor. -/
lemma advanceCursor_mem (c : Nat) (l : List Notification) :
    ∀ n ∈ l, n.id ≤ advanceCursor c l := by
  induction l generalizing c with
  | nil => intro n hn; cases hn
  | cons m t ih =>
    intro n hn
    rcases List.mem_cons.mp hn with rfl | ht
    · exact le_trans (le_max_right c n.id) (advanceCursor_ge _ t)
    · exact ih _ n ht

/-- Re-polling after absorbing a response returns the empty list. -/
lemma poll_advance_empty (st : Store) (subscriber : String) (c : Nat) :
    poll st subscriber (advanceCursor c (poll st subscriber c)) = [] := by
  rw [poll, List.filter_eq_nil_iff]
  intro n hn hpn
  simp only [Bool.and_eq_true, beq_iff_eq, Bool.not_eq_true', decide_eq_true_eq] at hpn
  obtain ⟨⟨hsub, hcl⟩, hgt⟩ := hpn
  have hc : c ≤ advanceCursor c (poll st subscriber c) := advanceCursor_ge _ _
  have hmem : n ∈ poll st subscriber c := by
    rw [poll, List.mem_filter]
    refine ⟨hn, ?_⟩
    simp only [Bool.and_eq_true, beq_iff_eq, Bool.not_eq_true', decide_eq_true_eq]
    exact ⟨⟨hsub, hcl⟩, by omega⟩
  have := advanceCursor_mem c (poll st subscriber c) n hmem
  omega

/-- C3: polling is prefix-consistent.  For cursors C1 < C2 the later poll is
exactly the part of the earlier poll with ids above C2; the id-restricted
part of the earlier poll and the later poll are disjoint (no duplicates) and
together are a permutation of the earlier poll (no losses); and a client
that re-polls with its cursor advanced past everything it has already seen
receives the empty list. -/
theorem c3_poll_prefix_consistent (st : Store) (subscriber : String) (c1 c2 : Nat)
    (h : c1 < c2) :
    poll st subscriber c2 = ((poll st subscriber c1).filter fun n => c2 < n.id)
      ∧ (((poll st subscriber c1).filter fun n => n.id ≤ c2)
          ++ poll st subscriber c2).Perm (poll st subscriber c1)
      ∧ (∀ n ∈ poll st subscriber c2,
          ∀ m ∈ (poll st subscriber c1).filter fun n => n.id ≤ c2, n.id ≠ m.id)
      ∧ (∀ c, poll st subscriber (advanceCursor c (poll st subscriber c)) = []) := by
  refine ⟨poll_shift st subscriber c1 c2 h, ?_, ?_, fun c => poll_advance_empty st subscriber c⟩
  · have hp := List.filter_append_perm
      (fun n : Notification => decide (n.id ≤ c2)) (poll st subscriber c1)
    rwa [poll_not_le st subscriber c1 c2 h] at hp
  · intro n hn m hm
    rw [poll, List.mem_filter] at hn
    have hn2 : c2 < n.id := by
      have := hn.2
      simp only [Bool.and_eq_true, decide_eq_true_eq] at this
      exact this.2
    rw [List.mem_filter] at hm
    have hm2 : m.id ≤ c2 := by
      have := hm.2
      simpa using this
    omega

/-- Concrete three-notification store used by the C3 witness. -/
def pollDemoStore : Store :=
  { notifs :=
      [{ id := 1, subscriber := "u", subId := 3, eventId := 100, read := false,
         cleared := false, delivery := [] },
       { id := 2, subscriber := "u", subId := 3, eventId := 101, read := true,
         cleared := false, delivery := [] },
       { id := 3, subscriber := "u", subId := 4, eventId := 101, read := false,
         cleared := false, delivery := [] }],
    nextId := 4, unread := fun s => if s = "u" then 2 else 0 }

/-- Witness for C3 at the concrete store with cursors 1 < 2: the later poll
is the id-filtered earlier poll, and re-polling with the absorbed cursor is
empty. -/
theorem c3_poll_prefix_consistent_witness :
    poll pollDemoStore "u" 2 = ((poll pollDemoStore "u" 1).filter fun n => 2 < n.id)
      ∧ poll pollDemoStore "u" (advanceCursor 1 (poll pollDemoStore "u" 1)) = [] :=
  ⟨(c3_poll_prefix_consistent pollDemoStore "u" 1 2 (by omega)).1,
   (c3_poll_prefix_consistent pollDemoStore "u" 1 2 (by omega)).2.2.2 1⟩

/-- One step of dispatch. -/
lemma dispatch_cons (send : Channel → DeliveryStatus) (nid : Nat) (ch : Channel)
    (t : List Channel) (st : Store) :
    dispatch send nid (ch :: t) st = dispatch send nid t (recordDelivery nid ch (send ch) st) :=
  rfl

/-- Dispatch appends one delivery-status entry per requested channel to the
addressed notification and touches nothing else. -/
lemma dispatch_notifs (send : Channel → DeliveryStatus) (nid : Nat) (chs : List Channel)
    (st : Store) :
    (dispatch send nid chs st).notifs
      = st.notifs.map fun n =>
          if n.id == nid then
            { n with delivery := n.delivery ++ chs.map fun ch => (ch, send ch) }
          else n := by
  induction chs generalizing st with
  | nil =>
    show st.notifs = _
    rw [show (fun n : Notification =>
        if n.id == nid then
          { n with delivery := n.delivery ++ List.map (fun ch => (ch, send ch)) [] }
        else n) = fun n => n from funext fun n => by simp]
    simp
  | cons ch t ih =>
    rw [dispatch_cons, ih]
    show (st.notifs.map fun n =>
        if n.id == nid then { n with delivery := n.delivery ++ [(ch, send ch)] } else n).map _ = _
    rw [List.map_map]
    apply List.map_congr_left
    intro n _
    by_cases hn : (n.id == nid) = true
    · simp [Function.comp, hn, List.append_assoc]
    · simp [Function.comp, hn]

/-- C5: a delivery failure on one channel neither prevents attempts on the
other requested channels nor removes the notification: after dispatch the
stored notification keeps its id, read flag, cleared flag and owner, its
delivery-status map has recorded the sender's outcome (including failures)
for every requested channel, and — if unread and not cleared — it still
appears in the subscriber's poll. -/
theorem c5_channel_failure_isolated (st : Store) (send : Channel → DeliveryStatus)
    (chs : List Channel) (n : Notification) (since : Nat) (hn : n ∈ st.notifs) :
    ∃ n' ∈ (dispatch send n.id chs st).notifs,
      n'.id = n.id ∧ n'.read = n.read ∧ n'.cleared = n.cleared
        ∧ n'.subscriber = n.subscriber
        ∧ n'.delivery = n.delivery ++ (chs.map fun ch => (ch, send ch))
        ∧ (∀ ch ∈ chs, (ch, send ch) ∈ n'.delivery)
        ∧ (n.read = false → n.cleared = false → since < n.id →
            n' ∈ poll (dispatch send n.id chs st) n.subscriber since) := by
  have hmem :
      ({ n with delivery := n.delivery ++ (chs.map fun ch => (ch, send ch)) } : Notification)
        ∈ (dispatch send n.id chs st).notifs := by
    rw [dispatch_notifs]
    have hm := List.mem_map_of_mem
      (f := fun m : Notification =>
        if m.id == n.id then
          { m with delivery := m.delivery ++ chs.map fun ch => (ch, send ch) }
        else m) hn
    simpa using hm
  refine ⟨_, hmem, rfl, rfl, rfl, rfl, rfl, ?_, ?_⟩
  · intro ch hch
    exact List.mem_append_right _ (List.mem_map_of_mem _ hch)
  · intro hr hc hlt
    rw [poll, List.mem_filter]
    refine ⟨hmem, ?_⟩
    simp [hr, hc, hlt]

/-- Concrete unread notification used by the C5 witness. -/
def demoNotif : Notification :=
  { id := 1, subscriber := "u", subId := 3, eventId := 100, read := false,
    cleared := false, delivery := [] }

/-- Concrete one-notification store used by the C5 witness. -/
def dispatchDemoStore : Store :=
  { notifs := [demoNotif], nextId := 2, unread := fun _ => 1 }

/-- Concrete sender whose email channel fails permanently. -/
def demoSend : Channel → DeliveryStatus
  | Channel.email => DeliveryStatus.failed "smtp-down"
  | _ => DeliveryStatus.delivered

/-- Witness for C5: with a permanently failing email sender, after dispatch
to popup and email the stored notification is still unread, its delivery map
records the email failure, and it still shows up in the subscriber's poll. -/
theorem c5_channel_failure_isolated_witness :
    ∃ n' ∈ (dispatch demoSend demoNotif.id [Channel.popup, Channel.email]
        dispatchDemoStore).notifs,
      n'.read = false
        ∧ (Channel.email, DeliveryStatus.failed "smtp-down") ∈ n'.delivery


        ∧ n' ∈ poll (dispatch demoSend demoNotif.id [Channel.popup, Channel.email]
            dispatchDemoStore) "u" 0 := by
  obtain ⟨n', hmem, hid, hread, hcl, hsub, hdel, hall, hpoll⟩ :=
    c5_channel_failure_isolated dispatchDemoStore demoSend [Channel.popup, Channel.email]
      demoNotif 0 (by simp [dispatchDemoStore])
  refine ⟨n', hmem, hread.trans rfl, hall Channel.email (by simp), ?_⟩
  exact hpoll rfl rfl (by decide)

/-- C6: with a plan ceiling of 2 enabled subscriptions and 2 already enabled
for the subscriber, an otherwise valid create returns QuotaExceeded, and the
registry — hence the subscriber's enabled-subscription count — is unchanged
by the failed create. -/
theorem c6_quota_exceeded_third_create (isAdmin : Bool) (plan : Plan)
    (subscriber : String) (cfg : SubConfig) (reg : Registry)
    (hplan : plan.maxEnabled = 2) (hcount : enabledCount subscriber reg = 2)
    (hvalid : validConfig cfg = true)
    (hbroadcast : Channel.broadcast ∈ cfg.channels → isAdmin = true)
    (hallowed : ∀ ch ∈ cfg.channels, ch ∈ plan.allowedChannels) :
    createSub isAdmin plan subscriber cfg reg = (reg, .error RegError.QuotaExceeded)
      ∧ enabledCount subscriber (createSub isAdmin plan subscriber cfg reg).1 = 2 := by
  have hforb : ¬(Channel.broadcast ∈ cfg.channels ∧ isAdmin = false) := by
    rintro ⟨hm, hf⟩
    rw [hbroadcast hm] at hf
    cases hf
  have hfind : cfg.channels.find? (fun ch => !plan.allowedChannels.contains ch) = none := by
    rw [List.find?_eq_none]
    intro ch hch
    simp [hallowed ch hch]
  have hmain : createSub isAdmin plan subscriber cfg reg
      = (reg, .error RegError.QuotaExceeded) := by
    unfold createSub
    rw [if_neg hforb, if_neg (by simp [hvalid]), hfind]
    simp [hplan, hcount]
  exact ⟨hmain, by rw [hmain]; exact hcount⟩

/-- Concrete plan allowing only the in-app channel with a ceiling of 2. -/
def demoPlan : Plan := { maxEnabled := 2, allowedChannels := [Channel.inApp] }

/-- Concrete registry holding two enabled subscriptions of subscriber u. -/
def quotaDemoReg : Registry :=
  { subs := [demoSub, { demoSub with id := 4 }], nextSubId := 5 }

/-- Concrete valid configuration requesting only the in-app channel. -/
def demoCfg : SubConfig :=
  { strategyScope := StratScope.wildcard, symbols := SymScope.wildcard,
    eventTypes := EvtScope.wildcard, minConfidence := 0,
    channels := [Channel.inApp] }

/-- Witness for C6: the third create for subscriber u under a ceiling of 2
fails with QuotaExceeded and leaves exactly the 2 enabled subscriptions. -/
theorem c6_quota_exceeded_third_create_witness :
    createSub false demoPlan "u" demoCfg quotaDemoReg
        = (quotaDemoReg, .error RegError.QuotaExceeded)
      ∧ enabledCount "u" (createSub false demoPlan "u" demoCfg quotaDemoReg).1 = 2 :=
  c6_quota_exceeded_third_create false demoPlan "u" demoCfg quotaDemoReg rfl rfl rfl
    (by decide) (by decide)

/-- C7: a create or an update whose configuration carries an empty explicit
symbol set or an empty explicit event-type set is rejected with InvalidConfig
(and the registry is unchanged) whenever the request is not a non-admin
broadcast assignment — on that overlap the single returned error must be the
Forbidden the capability gate raises first — and an empty-set configuration
never succeeds under any circumstances; the wildcard is never conflated with
the empty set: a wildcard symbol scope never draws InvalidConfig on either
operation when the rest of the configuration is well-formed. -/
theorem c7_empty_scope_rejected (isAdmin : Bool) (plan : Plan) (subscriber : String)
    (sid : Nat) (reg : Registry) :
    (∀ cfg : SubConfig,
        cfg.symbols = SymScope.explicit [] ∨ cfg.eventTypes = EvtScope.explicit [] →
        (Channel.broadcast ∈ cfg.channels → isAdmin = true) →
        createSub isAdmin plan subscriber cfg reg = (reg, .error RegError.InvalidConfig)
          ∧ updateSub isAdmin plan sid cfg reg = (reg, .error RegError.InvalidConfig))
      ∧ (∀ cfg : SubConfig,
          cfg.symbols = SymScope.explicit [] ∨ cfg.eventTypes = EvtScope.explicit [] →
          (∀ x, (createSub isAdmin plan subscriber cfg reg).2 ≠ Except.ok x)
            ∧ (∀ x, (updateSub isAdmin plan sid cfg reg).2 ≠ Except.ok x))
      ∧ (∀ cfg : SubConfig, cfg.symbols = SymScope.wildcard →
          evtScopeEmpty cfg.eventTypes = false → cfg.minConfidence ≤ 100 →
          (createSub isAdmin plan subscriber cfg reg).2 ≠ Except.error RegError.InvalidConfig
            ∧ (updateSub isAdmin plan sid cfg reg).2 ≠ Except.error RegError.InvalidConfig) := by
  refine ⟨fun cfg hcfg hcap => ?_, fun cfg hcfg => ?_, fun cfg hsym hevt hconf => ?_⟩
  · have hv : validConfig cfg = false := by
      rcases hcfg with h | h
      · simp [validConfig, symScopeEmpty, h]
      · simp [validConfig, evtScopeEmpty, h]
    have hforb : ¬(Channel.broadcast ∈ cfg.channels ∧ isAdmin = false) := by
      rintro ⟨hm, hf⟩
      rw [hcap hm] at hf
      cases hf
    constructor
    · unfold createSub
      rw [if_neg hforb, if_pos hv]
    · unfold updateSub
      rw [if_neg hforb, if_pos hv]
  · have hv : validConfig cfg = false := by
      rcases hcfg with h | h
      · simp [validConfig, symScopeEmpty, h]
      · simp [validConfig, evtScopeEmpty, h]
    constructor
    · intro x
      unfold createSub
      by_cases hforb : Channel.broadcast ∈ cfg.channels ∧ isAdmin = false
      · rw [if_pos hforb]
        simp
      · rw [if_neg hforb, if_pos hv]
        simp
    · intro x
      unfold updateSub
      by_cases hforb : Channel.broadcast ∈ cfg.channels ∧ isAdmin = false
      · rw [if_pos hforb]
        simp
      · rw [if_neg hforb, if_pos hv]
        simp
  · have hv : validConfig cfg = true := by
      simp [validConfig, symScopeEmpty, hsym, hevt, hconf]
    constructor
    · unfold createSub
      split_ifs with hb h2 hq
      · simp
      · exact absurd h2 (by simp [hv])
      · cases hfind : cfg.channels.find? (fun ch => !plan.allowedChannels.contains ch) <;> simp
      · cases hfind : cfg.channels.find? (fun ch => !plan.allowedChannels.contains ch) <;> simp
    · unfold updateSub
      split_ifs with hb h2 hex
      · simp
      · exact absurd h2 (by simp [hv])
      · cases hfind : cfg.channels.find? (fun ch => !plan.allowedChannels.contains ch) <;> simp
      · cases hfind : cfg.channels.find? (fun ch => !plan.allowedChannels.contains ch) <;> simp

/-- Concrete configuration with an empty explicit symbol set. -/
def emptySymCfg : SubConfig :=
  { strategyScope := StratScope.wildcard, symbols := SymScope.explicit [],
    eventTypes := EvtScope.wildcard, minConfidence := 0, channels := [] }

/-- Concrete configuration with the wildcard symbol scope. -/
def wildSymCfg : SubConfig :=
  { strategyScope := StratScope.wildcard, symbols := SymScope.wildcard,
    eventTypes := EvtScope.wildcard, minConfidence := 0, channels := [] }

/-- The empty registry. -/
def reg0 : Registry := { subs := [], nextSubId := 1 }

/-- Witness for C7: on both create and update, the empty-set configuration
is rejected with InvalidConfig and never succeeds, while its wildcard
counterpart never draws InvalidConfig. -/
theorem c7_empty_scope_rejected_witness :
    (createSub false demoPlan "u" emptySymCfg reg0 = (reg0, .error RegError.InvalidConfig)
        ∧ updateSub false demoPlan 1 emptySymCfg reg0 = (reg0, .error RegError.InvalidConfig))
      ∧ (createSub false demoPlan "u" emptySymCfg reg0).2 ≠ Except.ok 1
      ∧ (createSub false demoPlan "u" wildSymCfg reg0).2 ≠ Except.error RegError.InvalidConfig
      ∧ (updateSub false demoPlan 1 wildSymCfg reg0).2 ≠ Except.error RegError.InvalidConfig :=
  ⟨(c7_empty_scope_rejected false demoPlan "u" 1 reg0).1 emptySymCfg (Or.inl rfl) (by decide),
   ((c7_empty_scope_rejected false demoPlan "u" 1 reg0).2.1 emptySymCfg (Or.inl rfl)).1 1,
   ((c7_empty_scope_rejected false demoPlan "u" 1 reg0).2.2 wildSymCfg rfl rfl (by decide)).1,
   ((c7_empty_scope_rejected false demoPlan "u" 1 reg0).2.2 wildSymCfg rfl rfl (by decide)).2⟩

/-- C8: every create and every update by a non-administrator identity whose
requested channel set includes the broadcast channel fails with Forbidden —
unconditionally, whatever the rest of the configuration — and leaves the
registry unchanged; only an administrator identity can assign the broadcast
channel. -/
theorem c8_broadcast_requires_admin (plan : Plan) (subscriber : String) (sid : Nat)
    (cfg : SubConfig) (reg : Registry) (hb : Channel.broadcast ∈ cfg.channels) :
    createSub false plan subscriber cfg reg = (reg, .error RegError.Forbidden)
      ∧ updateSub false plan sid cfg reg = (reg, .error RegError.Forbidden) := by
  constructor
  · unfold createSub
    rw [if_pos ⟨hb, rfl⟩]
  · unfold updateSub
    rw [if_pos ⟨hb, rfl⟩]

/-- Concrete valid configuration requesting the broadcast channel. -/
def broadcastCfg : SubConfig :=
  { strategyScope := StratScope.wildcard, symbols := SymScope.wildcard,
    eventTypes := EvtScope.wildcard, minConfidence := 0,
    channels := [Channel.broadcast] }

/-- Witness for C8: a non-administrator create and a non-administrator
update requesting the broadcast channel both fail with Forbidden, and the
same holds even when the configuration is otherwise invalid (an empty
explicit symbol set). -/
theorem c8_broadcast_requires_admin_witness :
    (createSub false demoPlan "u" broadcastCfg reg0 = (reg0, .error RegError.Forbidden)
        ∧ updateSub false demoPlan 1 broadcastCfg reg0 = (reg0, .error RegError.Forbidden))
      ∧ createSub false demoPlan "u"
          { broadcastCfg with symbols := SymScope.explicit [] } reg0
          = (reg0, .error RegError.Forbidden) :=
  ⟨c8_broadcast_requires_admin demoPlan "u" 1 broadcastCfg reg0 (by decide),
   (c8_broadcast_requires_admin demoPlan "u" 1
      { broadcastCfg with symbols := SymScope.explicit [] } reg0 (by decide)).1⟩
